import Mathlib

/-!
# Verification of the review-scraper core (go-marble-task)

Shallow embedding of the scraping pipeline:
* `findReviewIDs`  — heuristic candidate-id discovery over raw markup
  (the Go regexp `(?i)id=["']([^"'\s]*review[s]?[^"']*)["']` plus the
  deduplicating set built from a Go map);
* `extractSectionByID` — depth-first subtree isolation over the parsed tree;
* `extractReviewDataUsingLLM` — completion-reply post-processing (the
  `(?s)\[.*\]` array extraction followed by decoding);
* `handlePaginationStep` / `handlePaginationRun` — the pagination loop of
  `handlePagination`, driven by an oracle `Env` describing what the browser
  returns on each iteration;
* `ScrapeReviewsAcc` — the accumulation of reviews across pages performed by
  `ScrapeReviews`.

External collaborators (the Selenium driver, the completion service,
`golang.org/x/net/html`'s parser and renderer, `encoding/json`) are not part
of the repository; they enter the model as oracle parameters collected in
`Env` and `Scraper`.
-/

namespace Marble

/-- Text is modelled as a list of characters. -/
abbrev Str := List Char

/-- `Review` (part_000 lines 24-29): the four free-form text fields
produced by structured extraction. -/
structure Review where
  title : Str
  body : Str
  rating : Str
  reviewer : Str
deriving DecidableEq, Repr

/-! ## Heuristic id discovery: the Go regexp `(?i)id=["']([^"'\s]*review[s]?[^"']*)["']`

The pattern is fixed, so its matching semantics are embedded directly:
at a candidate position the literal `id=` (case-insensitively) must be
followed by a quote, the captured group runs to the next quote character,
and the group must contain an occurrence of `review` (case-insensitively)
preceded only by non-whitespace characters (the `[^"'\s]*` prefix class);
`FindAllStringSubmatch` scans left to right and resumes after the closing
quote of each match. -/

/-- The quote class `["']` of the pattern. -/
def isQuoteCh (c : Char) : Bool := c == '"' || c == '\''

/-- Go regexp's Perl whitespace class `\s`, namely `[\t\n\f\r ]`. -/
def isSpaceGo (c : Char) : Bool :=
  c == ' ' || c == '\t' || c == '\n' || c == '\x0c' || c == '\r'

/-- Case-insensitive character comparison, as under the `(?i)` flag. -/
def chEqCI (a b : Char) : Bool := a.toLower == b.toLower

/-- Case-insensitive test that the first list is a prefix of the second. -/
def startsWithCI : Str → Str → Bool
  | [], _ => true
  | _ :: _, [] => false
  | p :: ps, c :: cs => chEqCI p c && startsWithCI ps cs

/-- The literal `review` of the pattern. -/
def reviewLit : Str := "review".data

/-- Does the text contain a case-insensitive occurrence of `review` preceded
only by non-whitespace characters?  This is exactly when the captured group
`[^"'\s]*review[s]?[^"']*` can cover a quote-free chunk. -/
def hasReviewNoWs : Str → Bool
  | [] => false
  | c :: cs => startsWithCI reviewLit (c :: cs) || (!isSpaceGo c && hasReviewNoWs cs)

/-- Does the text contain `review` case-insensitively as a substring? -/
def containsReviewCI : Str → Bool
  | [] => false
  | c :: cs => startsWithCI reviewLit (c :: cs) || containsReviewCI cs

/-- Second half of the per-position matcher: given the candidate captured
group (the quote-free run after the opening quote) and the remainder
starting at the next quote (if any), produce the capture and the text after
the closing quote. -/
def matchTail (grp : Str) (rem : Str) : Option (Str × Str) :=
  match rem with
  | [] => none
  | _ :: after => if hasReviewNoWs grp then some (grp, after) else none

/-- Per-position matcher for the pattern: succeeds iff a match of the Go
pattern starts exactly at the head of `s`, returning the captured group and
the text after the match. -/
def matchAt (s : Str) : Option (Str × Str) :=
  match s with
  | c0 :: c1 :: c2 :: c3 :: rest =>
    if chEqCI c0 'i' && chEqCI c1 'd' && c2 == '=' && isQuoteCh c3 then
      matchTail (rest.takeWhile (fun c => !isQuoteCh c))
        (rest.dropWhile (fun c => !isQuoteCh c))
    else none
  | _ => none

/-- Fuelled left-to-right scan (the fuel `s.length` in `idMatches` is always
sufficient because a successful match consumes at least five characters and
a failed position consumes one). -/
def idMatchesF : Nat → Str → List Str
  | 0, _ => []
  | _ + 1, [] => []
  | fuel + 1, c :: cs =>
    match matchAt (c :: cs) with
    | some gr => gr.1 :: idMatchesF fuel gr.2
    | none => idMatchesF fuel cs

/-- All captured groups of `re.FindAllStringSubmatch(html, -1)` for the Go
pattern, in match order (part_000 lines 137-146 before deduplication). -/
def idMatches (s : Str) : List Str := idMatchesF s.length s

/-! ## The parsed document tree and `extractSectionByID`

`golang.org/x/net/html` exposes nodes with a kind, an attribute list, a
first-child pointer and a next-sibling pointer; `HNode` mirrors that shape
(`nilNode` is the nil pointer).  `extractSectionByID`'s `traverse` closure
checks element nodes for an `id` attribute equal to the target, records a
match in the shared `section` variable and returns without descending into
the matched element; the enclosing loops keep running, so a later match
overwrites an earlier one. -/

/-- A node of the parsed document: the nil pointer, a non-element node
(text, comment, doctype, document — none of these can match), or an element
with tag name, attributes, first child and next sibling. -/
inductive HNode where
  | nilNode
  | textNode (next : HNode)
  | elemNode (tag : Str) (attrs : List (Str × Str)) (firstChild : HNode) (next : HNode)
deriving DecidableEq, Repr

/-- Does the attribute list contain a pair with key exactly `id` and value
exactly `idv` (part_000 line 162)? -/
def elemMatches (idv : Str) (attrs : List (Str × Str)) : Bool :=
  attrs.any (fun a => a.1 == "id".data && a.2 == idv)

/-- The `traverse` closure of `extractSectionByID`, folded over a node and
its following siblings: a matching element replaces the accumulator and its
children are skipped; otherwise the children are traversed first and then the
following siblings.  (The Go call starts at the document root, whose next
sibling is nil, so folding the sibling chain coincides with the Go
traversal.) -/
def visitChain (idv : Str) (acc : Option HNode) : HNode → Option HNode
  | .nilNode => acc
  | .textNode nxt => visitChain idv acc nxt
  | .elemNode t a fc nxt =>
    visitChain idv
      (if elemMatches idv a then some (.elemNode t a fc nxt)
       else visitChain idv acc fc) nxt

/-- `extractSectionByID` (part_000 lines 156-174): runs the traversal with
the shared `section` variable starting at nil. -/
def extractSectionByID (doc : HNode) (idv : Str) : Option HNode :=
  visitChain idv none doc

/-- The matches that the traversal can see, in document order: a matching
element is recorded and its subtree skipped; a non-matching element
contributes the matches of its children followed by those of its siblings. -/
def maximalMatches (idv : Str) : HNode → List HNode
  | .nilNode => []
  | .textNode nxt => maximalMatches idv nxt
  | .elemNode t a fc nxt =>
    (if elemMatches idv a then [.elemNode t a fc nxt] else maximalMatches idv fc)
      ++ maximalMatches idv nxt

/-- Is there any element with an exactly matching `id` anywhere in the node
or its siblings (also inside matched subtrees)? -/
def anyIdMatch (idv : Str) : HNode → Bool
  | .nilNode => false
  | .textNode nxt => anyIdMatch idv nxt
  | .elemNode _ a fc nxt => elemMatches idv a || anyIdMatch idv fc || anyIdMatch idv nxt

/-- Is the node an element carrying an `id` attribute equal to `idv`? -/
def isMatchNode (idv : Str) : HNode → Bool
  | .elemNode _ a _ _ => elemMatches idv a
  | _ => false

/-- The subtree-isolation behaviour described by the spec's words:
depth-first search returning the FIRST element in document order whose `id`
attribute exactly equals the identifier.  Stated from the spec (§4.2, §8)
for comparison with `extractSectionByID`. -/
def firstMatchByID (idv : Str) : HNode → Option HNode
  | .nilNode => none
  | .textNode nxt => firstMatchByID idv nxt
  | .elemNode t a fc nxt =>
    if elemMatches idv a then some (.elemNode t a fc nxt)
    else
      match firstMatchByID idv fc with
      | some m => some m
      | none => firstMatchByID idv nxt

/-- Tag projection, used to tell apart concrete results without needing
equality of whole subtrees. -/
def tagOf : Option HNode → Option Str
  | some (.elemNode t _ _ _) => some t
  | _ => none

/-- Threading of the `section` variable: the last element of the list wins,
otherwise the accumulator survives. -/
def lastOr : List HNode → Option HNode → Option HNode
  | [], acc => acc
  | m :: ms, _ => lastOr ms (some m)

/-! ## The structured extractor (`extractReviewDataUsingLLM`)

The completion service and `encoding/json` are external collaborators; they
appear as the oracles `llm` and `decode` of a `Scraper`.  The parts that do
live in part_000 — the prompt construction, the `(?s)\[.*\]` array
extraction and the error messages — are embedded directly. -/

/-- Text before the `%s` hole of the prompt template (part_000 lines 186-191). -/
def promptHead : Str :=
  ("\nYou are an assistant. Extract all review details from the following HTML snippet in strict JSON format. \nIdentify the title, body, rating, and reviewer for each review. Return only the JSON response.\n\nHTML:\n").data

/-- Text after the `%s` hole of the prompt template (part_000 lines 192-203). -/
def promptTail : Str :=
  ("\n\nJSON format:\n[\n  \x7b\n    \"title\": \"Review Title\",\n    \"body\": \"Review Body\",\n    \"rating\": \"Rating (e.g., 5 stars, 4/5, etc.)\",\n    \"reviewer\": \"Reviewer Name\"\n  \x7d,\n  ...\n]\n").data

/-- The `fmt.Sprintf` building the prompt around the section markup. -/
def buildPrompt (sectionHTML : Str) : Str := promptHead ++ sectionHTML ++ promptTail

/-- `FindString` of the Go regexp `(?s)\[.*\]`: the leftmost match starts at
the first `[` that has some `]` after it, and the greedy dot-all `.*` extends
the match to the last `]` of the reply; `none` when no such pair exists. -/
def extractJSONArray (s : Str) : Option Str :=
  let r :=
    (((s.dropWhile (fun c => c != '[')).reverse.dropWhile (fun c => c != ']')).reverse)
  if r.isEmpty then none else some r

/-- The error value of part_000 line 216: a fixed message, no payload. -/
def extractFailMsg : Str := "failed to extract JSON from response".data

/-- Message head of part_000 line 210 (`failed to generate completion: %v`). -/
def genFailMsg : Str := "failed to generate completion".data

/-- Message head of part_000 line 222 (`failed to parse review JSON: %v`). -/
def parseFailMsg : Str := "failed to parse review JSON".data

/-- `fmt.Errorf("<head>: %v", e)`. -/
def appendMsg (head e : Str) : Str := head ++ (": ").data ++ e

/-- The external collaborators of one scrape invocation, as oracles:
Go-map iteration order (any permutation — `order_perm` is the only fact Go
guarantees about it), `html.Parse`, `html.Render`, the completion service
(applied to the full prompt) and `encoding/json.Unmarshal` into `[]Review`. -/
structure Scraper where
  order : List Str → List Str
  order_perm : ∀ l, List.Perm (order l) l
  parse : Str → HNode
  render : HNode → Str
  llm : Str → Except Str Str
  decode : Str → Except Str (List Review)

/-- `renderNodeToString` (part_000 lines 177-181), via the render oracle. -/
def renderNodeToString (S : Scraper) (n : HNode) : Str := S.render n

/-- `extractReviewDataUsingLLM` (part_000 lines 184-226): build the prompt,
call the completion service, extract the first-to-last bracketed array from
the reply, decode it; each failure is returned as an error value. -/
def extractReviewDataUsingLLM (S : Scraper) (sectionHTML : Str) :
    Except Str (List Review) :=
  match S.llm (buildPrompt sectionHTML) with
  | .error e => .error (appendMsg genFailMsg e)
  | .ok response =>
    match extractJSONArray response with
    | none => .error extractFailMsg
    | some m =>
      match S.decode m with
      | .error e => .error (appendMsg parseFailMsg e)
      | .ok reviews => .ok reviews

/-- `findReviewIDs` (part_000 lines 136-153): the distinct captured groups,
in the iteration order of the Go map that collapsed the duplicates. -/
def findReviewIDs (S : Scraper) (html : Str) : List Str :=
  S.order (idMatches html).dedup

/-- The contribution of one candidate id inside the per-page loop of
`ScrapeReviews` (part_000 lines 313-328): nothing when the section is not
found or its extraction fails, the extracted reviews otherwise. -/
def idContribution (S : Scraper) (doc : HNode) (idv : Str) : List Review :=
  match extractSectionByID doc idv with
  | none => []
  | some sec =>
    match extractReviewDataUsingLLM S (renderNodeToString S sec) with
    | .error _ => []
    | .ok reviews => reviews

/-- The `processPage` closure of `ScrapeReviews` (part_000 lines 300-331)
restricted to the reviews it appends for one page source: discover candidate
ids, parse the page once, and fold the per-id contributions left to right.
(The closure only returns a non-nil error if `html.Parse` fails, which the
Go parser never does on a string input, so it is total here.) -/
def pageReviews (S : Scraper) (pageSource : Str) : List Review :=
  (findReviewIDs S pageSource).foldl
    (fun acc idv => acc ++ idContribution S (S.parse pageSource) idv) []

/-! ## The pagination engine (`handlePagination`)

The browser is an oracle `Env` giving, for each iteration `k`, the page
source fetched at the top of the loop, whether any of the five pagination
selectors matched, and the page source fetched after the fallback scroll.
Driver errors abort the Go loop fatally; the state machine below models the
error-free traversal, which is what the pagination claims are about. -/

/-- The browser oracle for one traversal. -/
structure Env where
  pageSrc : Nat → Str
  control : Nat → Bool
  scrollSrc : Nat → Str

/-- Loop state: `running k prev` is the top of iteration `k` with
`prevPageSource = prev`; `done k` means the loop broke during iteration `k`. -/
inductive EngineState where
  | running (k : Nat) (prev : Str)
  | done (k : Nat)
deriving DecidableEq, Repr

/-- One iteration of the `for` loop of `handlePagination` (part_000 lines
231-282): fetch and process the page (which cannot alter control flow), then
click a pagination control if one is found, otherwise scroll, re-fetch and
break exactly when the new source equals `prevPageSource`, updating
`prevPageSource` to the new source otherwise. -/
def handlePaginationStep (env : Env) : EngineState → EngineState
  | .running k prev =>
    if env.control k then .running (k + 1) prev
    else if env.scrollSrc k = prev then .done k
    else .running (k + 1) (env.scrollSrc k)
  | .done k => .done k

/-- The loop state after `n` iterations, starting from
`prevPageSource := ""` (part_000 line 230). -/
def handlePaginationRun (env : Env) : Nat → EngineState
  | 0 => .running 0 []
  | n + 1 => handlePaginationStep env (handlePaginationRun env n)

/-- The value of `prevPageSource` at the top of iteration `k` (as long as
the loop is still running): the source fetched after the most recent
scroll-based advance, or the empty string if no scroll advance happened yet. -/
def prevAt (env : Env) : Nat → Str
  | 0 => []
  | k + 1 => if env.control k then prevAt env k else env.scrollSrc k

/-- Has the traversal terminated? -/
def isDone : EngineState → Bool
  | .running _ _ => false
  | .done _ => true

/-- Number of page snapshots processed so far: iteration `k` processes its
page before attempting to advance, so a loop that broke during iteration `k`
has processed `k + 1` pages. -/
def pagesDone : EngineState → Nat
  | .running k _ => k
  | .done k => k + 1

/-- `ScrapeReviews` (part_000 lines 288-338) after `n` loop iterations: the
engine state together with `allReviews`, which each iteration extends with
the reviews of the page source fetched at its top. -/
def ScrapeReviewsAcc (S : Scraper) (env : Env) : Nat → EngineState × List Review
  | 0 => (.running 0 [], [])
  | n + 1 =>
    match ScrapeReviewsAcc S env n with
    | (.done k, acc) => (.done k, acc)
    | (.running k prev, acc) =>
      (handlePaginationStep env (.running k prev),
        acc ++ pageReviews S (env.pageSrc k))

/-! ## Helper lemmas -/

theorem length_dropWhile_le (p : Char → Bool) (l : List Char) :
    (l.dropWhile p).length ≤ l.length := by
  induction l with
  | nil => simp
  | cons c cs ih =>
    rw [List.dropWhile_cons]
    by_cases h : p c
    · simp only [h, if_true]
      exact Nat.le_succ_of_le ih
    · simp [h]

theorem dropWhile_append_all (p : Char → Bool) (l₁ l₂ : List Char)
    (h : ∀ c ∈ l₁, p c = true) : (l₁ ++ l₂).dropWhile p = l₂.dropWhile p := by
  induction l₁ with
  | nil => rfl
  | cons c cs ih =>
    rw [List.cons_append, List.dropWhile_cons, if_pos (h c (by simp))]
    exact ih (fun x hx => h x (by simp [hx]))

theorem foldl_append_eq_flatten {α β : Type} (f : α → List β) (l : List α)
    (acc : List β) :
    l.foldl (fun a x => a ++ f x) acc = acc ++ (l.map f).flatten := by
  induction l generalizing acc with
  | nil => simp
  | cons a l ih => simp [ih, List.append_assoc]

theorem flatten_map_filter {α β : Type} (f : α → List β) (p : α → Bool)
    (l : List α) (h : ∀ x ∈ l, p x = false → f x = []) :
    (((l.filter p).map f)).flatten = ((l.map f)).flatten := by
  induction l with
  | nil => rfl
  | cons a l ih =>
    have ih' := ih (fun x hx => h x (by simp [hx]))
    by_cases hp : p a
    · simp [List.filter_cons, hp, ih']
    · simp only [List.filter_cons, Bool.not_eq_true] at hp ⊢
      simp [hp, ih', h a (by simp) hp]

/-! ### Facts about the id scanner -/

theorem hasReviewNoWs_contains (s : Str) (h : hasReviewNoWs s = true) :
    containsReviewCI s = true := by
  induction s with
  | nil => simp [hasReviewNoWs] at h
  | cons c cs ih =>
    simp only [hasReviewNoWs, Bool.or_eq_true, Bool.and_eq_true] at h
    rcases h with h | ⟨_, h⟩
    · simp [containsReviewCI, h]
    · simp [containsReviewCI, ih h]

theorem matchTail_inv {g rem g' r : Str} (h : matchTail g rem = some (g', r)) :
    g' = g ∧ hasReviewNoWs g = true ∧ ∃ q, rem = q :: r := by
  cases rem with
  | nil => simp [matchTail] at h
  | cons q after =>
    by_cases hg : hasReviewNoWs g
    · simp only [matchTail, hg, if_true, Option.some.injEq, Prod.mk.injEq] at h
      exact ⟨h.1.symm, hg, q, by rw [h.2]⟩
    · simp [matchTail, hg] at h

theorem matchAt_inv : ∀ {s g r : Str}, matchAt s = some (g, r) →
    hasReviewNoWs g = true ∧ r.length < s.length := by
  intro s g r h
  match s with
  | [] => simp [matchAt] at h
  | [c0] => simp [matchAt] at h
  | [c0, c1] => simp [matchAt] at h
  | [c0, c1, c2] => simp [matchAt] at h
  | c0 :: c1 :: c2 :: c3 :: rest =>
    simp only [matchAt] at h
    split at h
    · obtain ⟨hgg, hrev, q, hq⟩ := matchTail_inv h
      subst hgg
      refine ⟨hrev, ?_⟩
      have h1 : (rest.dropWhile (fun c => !isQuoteCh c)).length ≤ rest.length :=
        length_dropWhile_le _ _
      rw [hq] at h1
      simp only [List.length_cons] at h1
      simp only [List.length_cons]
      omega
    · simp at h

theorem idMatchesF_sound : ∀ (fuel : Nat) (s : Str),
    ∀ idv ∈ idMatchesF fuel s, containsReviewCI idv = true := by
  intro fuel
  induction fuel with
  | zero => intro s idv h; simp [idMatchesF] at h
  | succ fuel ih =>
    intro s idv h
    cases s with
    | nil => simp [idMatchesF] at h
    | cons c cs =>
      cases hm : matchAt (c :: cs) with
      | none =>
        simp only [idMatchesF, hm] at h
        exact ih cs idv h
      | some gr =>
        obtain ⟨g, r⟩ := gr
        simp only [idMatchesF, hm, List.mem_cons] at h
        rcases h with h | h
        · subst h
          exact hasReviewNoWs_contains _ (matchAt_inv hm).1
        · exact ih r idv h

/-- Soundness of discovery: every captured group contains `review`
case-insensitively as a substring. -/
theorem idMatches_sound (s idv : Str) (h : idv ∈ idMatches s) :
    containsReviewCI idv = true :=
  idMatchesF_sound s.length s idv h

/-- The canonical JSON rendering of one review, keys in the order of the
prompt's format description. -/
def renderReview (r : Review) : Str :=
  ("\x7b\"title\": \"").data ++ r.title ++ ("\", \"body\": \"").data ++ r.body ++
    ("\", \"rating\": \"").data ++ r.rating ++ ("\", \"reviewer\": \"").data ++
    r.reviewer ++ ("\"\x7d").data

/-- The canonical JSON rendering of a review array: a bracket-delimited,
comma-separated list of objects. -/
def renderReviews (rs : List Review) : Str :=
  '[' :: (List.intercalate (", ").data (rs.map renderReview) ++ [ ']' ])

/-- Bracket extraction on a reply embedding one bracket-delimited chunk: if
no `[` occurs before the chunk and no `]` after it, `FindString` recovers
exactly the chunk. -/
theorem extractJSONArray_embed (pre mid post : Str)
    (hpre : '[' ∉ pre) (hpost : ']' ∉ post) :
    extractJSONArray (pre ++ ('[' :: (mid ++ [ ']' ])) ++ post) =
      some ('[' :: (mid ++ [ ']' ])) := by
  have h1 : (pre ++ ('[' :: (mid ++ [ ']' ])) ++ post).dropWhile (fun c => c != '[') =
      '[' :: (mid ++ [ ']' ]) ++ post := by
    rw [List.append_assoc, dropWhile_append_all _ pre _ ?hall]
    · rw [List.cons_append, List.dropWhile_cons]
      simp
    · intro c hc
      simp only [bne_iff_ne, ne_eq]
      intro hceq
      exact hpre (hceq ▸ hc)
  have h2 : (('[' :: (mid ++ [ ']' ]) ++ post).reverse).dropWhile (fun c => c != ']') =
      (']' :: (mid.reverse ++ [ '[' ])) := by
    rw [List.reverse_append, dropWhile_append_all _ post.reverse _ ?hall2]
    · simp only [List.reverse_cons, List.reverse_append, List.reverse_cons,
        List.reverse_nil, List.nil_append, List.cons_append, List.dropWhile_cons]
      simp
    · intro c hc
      simp only [bne_iff_ne, ne_eq]
      intro hceq
      exact hpost (hceq ▸ List.mem_reverse.mp hc)
  simp only [extractJSONArray, h1, h2]
  simp

/-! ### Facts about the tree traversal -/

theorem lastOr_append (l₁ l₂ : List HNode) (acc : Option HNode) :
    lastOr (l₁ ++ l₂) acc = lastOr l₂ (lastOr l₁ acc) := by
  induction l₁ generalizing acc with
  | nil => rfl
  | cons m ms ih => simp [lastOr, ih]

theorem visitChain_eq (idv : Str) (acc : Option HNode) (n : HNode) :
    visitChain idv acc n = lastOr (maximalMatches idv n) acc := by
  induction n generalizing acc with
  | nilNode => rfl
  | textNode nxt ih => simp [visitChain, maximalMatches, ih]
  | elemNode t a fc nxt ihfc ihnxt =>
    by_cases h : elemMatches idv a
    · simp [visitChain, maximalMatches, h, ihnxt, lastOr_append, lastOr]
    · simp [visitChain, maximalMatches, h, ihnxt, ihfc, lastOr_append]

theorem maximalMatches_eq_nil_iff (idv : Str) (n : HNode) :
    maximalMatches idv n = [] ↔ anyIdMatch idv n = false := by
  induction n with
  | nilNode => simp [maximalMatches, anyIdMatch]
  | textNode nxt ih => simpa [maximalMatches, anyIdMatch] using ih
  | elemNode t a fc nxt ihfc ihnxt =>
    by_cases h : elemMatches idv a
    · simp [maximalMatches, anyIdMatch, h]
    · simp [maximalMatches, anyIdMatch, h, ihfc, ihnxt]

theorem mem_maximalMatches (idv : Str) (n : HNode) :
    ∀ m ∈ maximalMatches idv n, isMatchNode idv m = true := by
  induction n with
  | nilNode => simp [maximalMatches]
  | textNode nxt ih => simpa [maximalMatches] using ih
  | elemNode t a fc nxt ihfc ihnxt =>
    intro m hm
    by_cases h : elemMatches idv a
    · simp only [maximalMatches, h, if_true, List.mem_append,
        List.mem_singleton] at hm
      rcases hm with hm | hm
      · subst hm; simpa [isMatchNode] using h
      · exact ihnxt m hm
    · simp only [maximalMatches, h, if_false, Bool.false_eq_true,
        List.mem_append] at hm
      rcases hm with hm | hm
      · exact ihfc m hm
      · exact ihnxt m hm

theorem lastOr_some_eq_getLast? : ∀ (l : List HNode) (m : HNode),
    lastOr l (some m) = (m :: l).getLast? := by
  intro l
  induction l with
  | nil => intro m; rfl
  | cons a l ih =>
    intro m
    rw [List.getLast?_cons_cons]
    exact ih a

theorem lastOr_none_eq_getLast? (l : List HNode) :
    lastOr l none = l.getLast? := by
  cases l with
  | nil => rfl
  | cons a l => exact lastOr_some_eq_getLast? l a

/-! ### Facts about the pagination loop -/

/-- Trace characterisation of `handlePagination`: after `n` iterations the
loop is either still running with `prevPageSource = prevAt env n` and no
earlier iteration stagnated, or it broke at the first iteration `k` on which
no control was found and the post-scroll fetch equalled `prevAt env k`. -/
theorem run_char (env : Env) : ∀ n : Nat,
    (handlePaginationRun env n = .running n (prevAt env n) ∧
      ∀ k, k < n → env.control k = true ∨ env.scrollSrc k ≠ prevAt env k) ∨
    (∃ k, k < n ∧ handlePaginationRun env n = .done k ∧
      env.control k = false ∧ env.scrollSrc k = prevAt env k ∧
      ∀ j, j < k → env.control j = true ∨ env.scrollSrc j ≠ prevAt env j) := by
  intro n
  induction n with
  | zero => exact Or.inl ⟨rfl, fun k hk => absurd hk (Nat.not_lt_zero k)⟩
  | succ n ih =>
    rcases ih with ⟨hrun, hno⟩ | ⟨k, hk, hdone, hkc, hks, hkno⟩
    · by_cases hc : env.control n
      · refine Or.inl ⟨?_, ?_⟩
        · rw [handlePaginationRun, hrun]
          simp [handlePaginationStep, hc, prevAt]
        · intro k hk
          rcases Nat.lt_succ_iff_lt_or_eq.mp hk with hk | hk
          · exact hno k hk
          · subst hk; exact Or.inl hc
      · by_cases hs : env.scrollSrc n = prevAt env n
        · refine Or.inr ⟨n, Nat.lt_succ_self n, ?_, by simpa using hc, hs, hno⟩
          rw [handlePaginationRun, hrun]
          simp [handlePaginationStep, hc, hs]
        · refine Or.inl ⟨?_, ?_⟩
          · rw [handlePaginationRun, hrun]
            simp [handlePaginationStep, hc, hs, prevAt]
          · intro k hk
            rcases Nat.lt_succ_iff_lt_or_eq.mp hk with hk | hk
            · exact hno k hk
            · subst hk; exact Or.inr hs
    · refine Or.inr ⟨k, Nat.lt_succ_of_lt hk, ?_, hkc, hks, hkno⟩
      rw [handlePaginationRun, hdone]
      rfl

/-- The state component of `ScrapeReviewsAcc` is exactly the pagination
state: per-section failures never influence control flow. -/
theorem ScrapeReviewsAcc_fst (S : Scraper) (env : Env) : ∀ n : Nat,
    (ScrapeReviewsAcc S env n).1 = handlePaginationRun env n := by
  intro n
  induction n with
  | zero => rfl
  | succ n ih =>
    rw [ScrapeReviewsAcc, handlePaginationRun, ← ih]
    rcases h : ScrapeReviewsAcc S env n with ⟨st, acc⟩
    cases st with
    | running k prev => simp
    | done k => simp [handlePaginationStep]

/-! ## Concrete instances used by witnesses and counterexamples -/

/-- A scraper whose oracles are all trivial and whose map-iteration order is
the identity. -/
def idScraper : Scraper where
  order := fun l => l
  order_perm := fun l => List.Perm.refl l
  parse := fun _ => .nilNode
  render := fun _ => []
  llm := fun _ => .ok []
  decode := fun _ => .error []

/-- Second sibling carrying `id="x"`. -/
def nodeB : HNode :=
  .elemNode ("b").data [(("id").data, ("x").data)] .nilNode .nilNode

/-- First sibling carrying `id="x"`, followed by `nodeB`. -/
def nodeA : HNode :=
  .elemNode ("a").data [(("id").data, ("x").data)] .nilNode nodeB

/-- A document whose root has two children both carrying `id="x"`. -/
def dupTree : HNode := .elemNode ("html").data [] nodeA .nilNode

/-! ## Claim C3 — subtree isolation -/

/-- C3 (amended): `extractSectionByID` returns a not-found signal exactly
when no element of the document carries an `id` attribute equal to the
identifier; otherwise it returns the subtree rooted at the LAST match in
document order among elements not nested inside another matching element
(the traversal records a match without descending into it, but keeps
running, so a later match overwrites an earlier one), and the returned node
always carries the requested id. -/
theorem extractSection_last_maximal_match (d : HNode) (idv : Str) :
    extractSectionByID d idv = (maximalMatches idv d).getLast? ∧
    (extractSectionByID d idv = none ↔ anyIdMatch idv d = false) ∧
    (∀ m, extractSectionByID d idv = some m → isMatchNode idv m = true) := by
  have h1 : extractSectionByID d idv = (maximalMatches idv d).getLast? := by
    rw [extractSectionByID, visitChain_eq, lastOr_none_eq_getLast?]
  refine ⟨h1, ?_, ?_⟩
  · rw [h1]
    constructor
    · intro h
      exact (maximalMatches_eq_nil_iff idv d).mp (List.getLast?_eq_none_iff.mp h)
    · intro h
      rw [(maximalMatches_eq_nil_iff idv d).mpr h]
      rfl
  · intro m hm
    rw [h1] at hm
    exact mem_maximalMatches idv d m (List.mem_of_mem_getLast? (Option.mem_def.mpr hm))

/-- C3 counterexample: on a document with two sibling elements both carrying
`id="x"`, `extractSectionByID` returns the second one, while the first
element in document order with that id is the first sibling — so "first
document-order match wins" fails on the code. -/
theorem extractSection_not_first_match :
    tagOf (extractSectionByID dupTree (("x").data)) = some (("b").data) ∧
    tagOf (firstMatchByID (("x").data) dupTree) = some (("a").data) ∧
    ("a").data ≠ ("b").data := by
  refine ⟨by decide, by decide, by decide⟩

/-- C3 witness: the amended theorem applied to the concrete duplicate-id
document. -/
theorem extractSection_last_maximal_match_witness :
    extractSectionByID dupTree (("x").data) =
      (maximalMatches (("x").data) dupTree).getLast? ∧
    isMatchNode (("x").data) nodeB = true :=
  ⟨(extractSection_last_maximal_match dupTree (("x").data)).1,
    (extractSection_last_maximal_match dupTree (("x").data)).2.2 nodeB (by decide)⟩

/-! ## Claim C6 — what the discovery pattern matches -/

/-- C6 (amended): discovery is case-insensitive and sound — every discovered
value contains `review` case-insensitively as a substring — and both
`id="Review"` and `id="Product_Reviews_2"` are discovered; but the character
class before the `review` literal excludes whitespace, so a value in which
every occurrence of the substring is preceded by embedded whitespace (such
as `my review`) is NOT discovered; membership in `findReviewIDs` agrees with
membership in the raw match list. -/
theorem discovery_case_insensitive_sound :
    (∀ s idv, idv ∈ idMatches s → containsReviewCI idv = true) ∧
    idMatches (("id=\"Review\"").data) = [("Review").data] ∧
    idMatches (("id=\"Product_Reviews_2\"").data) = [("Product_Reviews_2").data] ∧
    idMatches (("id=\"my review\"").data) = [] ∧
    (∀ (S : Scraper) (s idv : Str),
      idv ∈ findReviewIDs S s ↔ idv ∈ idMatches s) := by
  refine ⟨idMatches_sound, by decide, by decide, by decide, ?_⟩
  intro S s idv
  exact ((S.order_perm (idMatches s).dedup).mem_iff).trans List.mem_dedup

/-- C6 counterexample: the value `my review` contains `review` as a
substring, yet the markup `id="my review"` yields no discovery — refuting
"every id attribute value containing review ... including values with
embedded whitespace before the substring is discovered". -/
theorem discovery_misses_whitespace_value :
    containsReviewCI (("my review").data) = true ∧
    ("my review").data ∉ idMatches (("id=\"my review\"").data) := by
  refine ⟨by decide, by decide⟩

/-- C6 witness: soundness and the membership bridge evaluated at concrete
markup. -/
theorem discovery_case_insensitive_sound_witness :
    containsReviewCI (("Review").data) = true ∧
    (("reviews-x").data ∈ findReviewIDs idScraper (("data-id='reviews-x'").data) ↔
      ("reviews-x").data ∈ idMatches (("data-id='reviews-x'").data)) :=
  ⟨discovery_case_insensitive_sound.1 (("id=\"Review\"").data) (("Review").data)
      (by decide),
    discovery_case_insensitive_sound.2.2.2.2 idScraper (("data-id='reviews-x'").data)
      (("reviews-x").data)⟩

/-! ## Claim C7 — no duplicate candidate ids -/

/-- C7: for every markup text and every iteration order of the
deduplicating Go map, `findReviewIDs` contains no duplicates, so no
candidate token is processed twice for one page snapshot. -/
theorem findReviewIDs_nodup (S : Scraper) (html : Str) :
    (findReviewIDs S html).Nodup :=
  ((S.order_perm (idMatches html).dedup).nodup_iff).mpr (List.nodup_dedup _)

/-- C7 witness: markup in which the same id value occurs twice. -/
theorem findReviewIDs_nodup_witness :
    (findReviewIDs idScraper (("id='review1' id='review2' id='review1'").data)).Nodup :=
  findReviewIDs_nodup idScraper (("id='review1' id='review2' id='review1'").data)

/-! ## Claim C10 — raw-text discovery and silent skipping -/

/-- C10: the pattern works on raw markup text, so it also fires on attribute
names that merely end in `id` (`data-id='reviews-x'`) and on `id=`
occurrences inside comment text; a discovered candidate matching no
element's id in the parsed tree contributes nothing — the page's review
list equals the contributions of the present candidates only, and no error
arises. -/
theorem raw_discovery_and_silent_skip (S : Scraper) (ps : Str) :
    idMatches (("data-id='reviews-x'").data) = [("reviews-x").data] ∧
    ("review-c").data ∈ idMatches (("<!-- id='review-c' -->").data) ∧
    (∀ doc idv, extractSectionByID doc idv = none → idContribution S doc idv = []) ∧
    pageReviews S ps =
      (((findReviewIDs S ps).filter
          (fun idv => (extractSectionByID (S.parse ps) idv).isSome)).map
        (idContribution S (S.parse ps))).flatten := by
  refine ⟨by decide, by decide, ?_, ?_⟩
  · intro doc idv h
    simp [idContribution, h]
  · rw [pageReviews, foldl_append_eq_flatten, List.nil_append]
    refine (flatten_map_filter _ _ _ ?_).symm
    intro idv _ h
    cases hx : extractSectionByID (S.parse ps) idv with
    | none => simp [idContribution, hx]
    | some sec => rw [hx] at h; simp at h

/-- C10 witness: a page whose only candidate comes from a `data-id`
attribute and is absent from the parsed tree yields the empty review list. -/
theorem raw_discovery_and_silent_skip_witness :
    pageReviews idScraper (("data-id='reviews-x'").data) = [] := by
  rw [(raw_discovery_and_silent_skip idScraper (("data-id='reviews-x'").data)).2.2.2]
  decide

/-! ## Claim C4 — unit failures of the structured extractor -/

/-- C4 (amended): a reply with no bracketed array yields the extraction
error — a FIXED message that does not include the raw reply; a bracketed
array that fails to decode yields the parse error; a candidate section whose
extraction fails contributes nothing; the page result is exactly the
concatenation of per-candidate contributions; and no per-section outcome
ever influences the pagination control flow. -/
theorem unit_failure_skips_section (S : Scraper) :
    (∀ sect resp, S.llm (buildPrompt sect) = .ok resp →
      extractJSONArray resp = none →
      extractReviewDataUsingLLM S sect = .error extractFailMsg) ∧
    (∀ sect resp arr e, S.llm (buildPrompt sect) = .ok resp →
      extractJSONArray resp = some arr → S.decode arr = .error e →
      extractReviewDataUsingLLM S sect = .error (appendMsg parseFailMsg e)) ∧
    (∀ doc idv sec e, extractSectionByID doc idv = some sec →
      extractReviewDataUsingLLM S (renderNodeToString S sec) = .error e →
      idContribution S doc idv = []) ∧
    (∀ ps, pageReviews S ps =
      ((findReviewIDs S ps).map (idContribution S (S.parse ps))).flatten) ∧
    (∀ env n, (ScrapeReviewsAcc S env n).1 = handlePaginationRun env n) := by
  refine ⟨?_, ?_, ?_, ?_, ScrapeReviewsAcc_fst S⟩
  · intro sect resp h1 h2
    simp [extractReviewDataUsingLLM, h1, h2]
  · intro sect resp arr e h1 h2 h3
    simp [extractReviewDataUsingLLM, h1, h2, h3]
  · intro doc idv sec e h1 h2
    simp [idContribution, h1, h2]
  · intro ps
    rw [pageReviews, foldl_append_eq_flatten, List.nil_append]

/-- Two scrapers identical except for the raw completion reply (neither
reply containing a bracketed array). -/
def noJsonScraperA : Scraper :=
  { idScraper with llm := fun _ => .ok (("the reply alpha").data) }

/-- Same, with a different raw reply. -/
def noJsonScraperB : Scraper :=
  { idScraper with llm := fun _ => .ok (("some other reply").data) }

/-- C4 counterexample: two different bracket-free raw replies produce the
IDENTICAL error value, so the extraction error cannot be "carrying the raw
reply for diagnostics" (part_000 line 216 uses a constant message; only the
standalone main.go variant interpolates the reply). -/
theorem extraction_error_drops_reply :
    extractReviewDataUsingLLM noJsonScraperA [] = .error extractFailMsg ∧
    extractReviewDataUsingLLM noJsonScraperB [] = .error extractFailMsg ∧
    noJsonScraperA.llm (buildPrompt []) ≠ noJsonScraperB.llm (buildPrompt []) := by
  refine ⟨rfl, rfl, ?_⟩
  intro h
  injection h with h'
  exact absurd h' (by decide)

/-- A scraper whose reply contains a bracketed array that fails to decode. -/
def badJsonScraper : Scraper :=
  { idScraper with
    llm := fun _ => .ok (("here: [1, 2 oops] end").data)
    decode := fun _ => .error (("invalid character").data) }

/-- C4 witness: the amended theorem applied to the two failing scrapers. -/
theorem unit_failure_skips_section_witness :
    extractReviewDataUsingLLM noJsonScraperA [] = .error extractFailMsg ∧
    extractReviewDataUsingLLM badJsonScraper [] =
      .error (appendMsg parseFailMsg (("invalid character").data)) :=
  ⟨(unit_failure_skips_section noJsonScraperA).1 [] (("the reply alpha").data)
      rfl (by decide),
    (unit_failure_skips_section badJsonScraper).2.1 [] (("here: [1, 2 oops] end").data)
      (("[1, 2 oops]").data) (("invalid character").data) rfl (by decide) rfl⟩

/-! ## Claim C8 — well-formed replies round-trip verbatim -/

/-- C8: if the completion reply is a bracket-delimited rendering of a review
array, with no `[` before it and no `]` after it, and the decoder recovers
the array from that rendering (the documented behaviour of
`encoding/json.Unmarshal` on a well-formed array of objects with the four
expected fields), then the extractor succeeds and returns exactly that
array. -/
theorem wellformed_reply_verbatim (S : Scraper) (sect pre post : Str)
    (rs : List Review)
    (hpre : '[' ∉ pre) (hpost : ']' ∉ post)
    (hllm : S.llm (buildPrompt sect) = .ok (pre ++ renderReviews rs ++ post))
    (hdec : S.decode (renderReviews rs) = .ok rs) :
    extractReviewDataUsingLLM S sect = .ok rs := by
  have h := extractJSONArray_embed pre
    (List.intercalate ((", ").data) (rs.map renderReview)) post hpre hpost
  have hr : ('[' :: (List.intercalate ((", ").data) (rs.map renderReview) ++ [ ']' ]))
      = renderReviews rs := rfl
  rw [hr] at h
  simp only [extractReviewDataUsingLLM, hllm, h, hdec]

/-- One concrete review list. -/
def rs8 : List Review :=
  [⟨("Great").data, ("Nice product").data, ("5 stars").data, ("Ann").data⟩]

/-- A reply embedding the canonical rendering of `rs8` in prose. -/
def reply8 : Str :=
  ("Sure, here is the JSON: ").data ++ renderReviews rs8 ++ (" hope that helps.").data

/-- A scraper returning `reply8` and decoding its rendered array back. -/
def s8 : Scraper :=
  { idScraper with
    llm := fun _ => .ok reply8
    decode := fun s => if s = renderReviews rs8 then .ok rs8 else .error [] }

/-- C8 witness: the round-trip theorem applied to the concrete reply. -/
theorem wellformed_reply_verbatim_witness :
    extractReviewDataUsingLLM s8 [] = .ok rs8 :=
  wellformed_reply_verbatim s8 [] (("Sure, here is the JSON: ").data)
    ((" hope that helps.").data) rs8 (by decide) (by decide) rfl (by simp [s8])

/-! ## Claim C1 — the comparison baseline of the scroll fallback -/

/-- An oracle on which the first post-scroll fetch equals the snapshot
processed at the top of the same iteration. -/
def envA : Env := ⟨fun _ => ("A").data, fun _ => false, fun _ => ("A").data⟩

/-- An oracle on which the loop stagnates against the previous scroll fetch
even though the post-scroll fetch differs from the iteration's processing
snapshot. -/
def envB : Env := ⟨fun _ => ("B").data, fun _ => false, fun _ => ("A").data⟩

/-- C1 (amended): on a cycle with no pagination control, the loop
transitions to Done iff the post-scroll fetch equals `prevAt` — the markup
fetched after the MOST RECENT PREVIOUS scroll-based advance (the empty
string before any scroll advance) — not the snapshot processed at the top of
the same cycle; otherwise it continues with the new snapshot as the
baseline. -/
theorem scroll_done_iff_prev_scroll_fetch (env : Env) (n : Nat) :
    (handlePaginationRun env (n + 1) = .done n ↔
      env.control n = false ∧ env.scrollSrc n = prevAt env n ∧
      ∀ k, k < n → env.control k = true ∨ env.scrollSrc k ≠ prevAt env k) ∧
    (env.control n = false → env.scrollSrc n ≠ prevAt env n →
      handlePaginationRun env n = .running n (prevAt env n) →
      handlePaginationRun env (n + 1) = .running (n + 1) (env.scrollSrc n)) := by
  constructor
  · constructor
    · intro h
      rcases run_char env (n + 1) with ⟨hr, _⟩ | ⟨k, _, hdone, hkc, hks, hkno⟩
      · rw [hr] at h
        exact absurd h (by simp)
      · rw [hdone] at h
        injection h with hk'
        subst hk'
        exact ⟨hkc, hks, hkno⟩
    · rintro ⟨hc, hs, hno⟩
      rcases run_char env n with ⟨hr, _⟩ | ⟨k, hk, _, hkc, hks, _⟩
      · rw [handlePaginationRun, hr]
        simp [handlePaginationStep, hc, hs]
      · rcases hno k hk with h | h
        · rw [h] at hkc
          exact absurd hkc (by simp)
        · exact absurd hks h
  · intro hc hs hr
    rw [handlePaginationRun, hr]
    simp [handlePaginationStep, hc, hs]

/-- C1 counterexample: on `envA` the first post-scroll fetch equals the
snapshot processed at the top of the same cycle, yet the loop CONTINUES
(the code compares against the initial empty baseline); on `envB` the loop
reaches Done on iteration 1 although the post-scroll fetch differs from that
iteration's processing snapshot.  The claim's biconditional fails in both
directions. -/
theorem scroll_done_not_processing_snapshot :
    (envA.control 0 = false ∧ envA.scrollSrc 0 = envA.pageSrc 0 ∧
      handlePaginationRun envA 1 = .running 1 (("A").data)) ∧
    (envB.control 1 = false ∧ envB.scrollSrc 1 ≠ envB.pageSrc 1 ∧
      handlePaginationRun envB 2 = .done 1) := by
  refine ⟨⟨rfl, rfl, by decide⟩, ⟨rfl, by decide, by decide⟩⟩

/-- C1 witness: the amended characterisation applied to `envB`. -/
theorem scroll_done_iff_prev_scroll_fetch_witness :
    handlePaginationRun envB 2 = .done 1 :=
  ((scroll_done_iff_prev_scroll_fetch envB 1).1).mpr ⟨rfl, rfl, by
    intro k hk
    have hk0 : k = 0 := by omega
    subst hk0
    exact Or.inr (by decide)⟩

/-! ## Claim C5 — stagnation between consecutive scroll fetches -/

/-- An oracle whose very first post-scroll fetch returns the empty string,
equal to the INITIAL baseline even though no two scroll fetches ever
matched. -/
def envE : Env := ⟨fun _ => ("<html>").data, fun _ => false, fun _ => []⟩

/-- C5 (amended): the traversal has terminated within `n` iterations iff
some earlier scroll-advance cycle fetched markup equal to the baseline
`prevAt` — the previous scroll fetch, or the initial empty string before
any scroll advance.  Consequently scroll fetches that keep changing (and
never equal the empty initial baseline) never terminate the loop, and the
first repeat against the baseline ends it. -/
theorem done_iff_scroll_stagnation (env : Env) (n : Nat) :
    isDone (handlePaginationRun env n) = true ↔
      ∃ k, k < n ∧ env.control k = false ∧ env.scrollSrc k = prevAt env k := by
  constructor
  · intro h
    rcases run_char env n with ⟨hr, _⟩ | ⟨k, hk, _, hkc, hks, _⟩
    · rw [hr] at h
      simp [isDone] at h
    · exact ⟨k, hk, hkc, hks⟩
  · rintro ⟨k, hk, hkc, hks⟩
    rcases run_char env n with ⟨_, hno⟩ | ⟨k', _, hdone, _, _, _⟩
    · rcases hno k hk with h | h
      · rw [h] at hkc
        exact absurd hkc (by simp)
      · exact absurd hks h
    · rw [hdone]
      rfl

/-- C5 counterexample: on `envE` the loop reaches Done during its very
first iteration — only ONE scroll-triggered fetch ever happened, so no two
consecutive scroll-triggered fetches returned identical text, refuting
"continues looping otherwise". -/
theorem done_without_two_scroll_fetches :
    handlePaginationRun envE 1 = .done 0 ∧
    ¬ ∃ j k, j < k ∧ k < 1 ∧ envE.scrollSrc j = envE.scrollSrc k := by
  constructor
  · decide
  · rintro ⟨j, k, hjk, hk1, _⟩
    omega

/-- C5 witness: the amended characterisation applied to `envB`, which
stagnates on iteration 1 against the scroll fetch of iteration 0. -/
theorem done_iff_scroll_stagnation_witness :
    isDone (handlePaginationRun envB 2) = true :=
  (done_iff_scroll_stagnation envB 2).mpr ⟨1, by omega, rfl, by decide⟩

/-! ## Claim C9 — no iteration ceiling -/

/-- An oracle on which a pagination control is found on every cycle. -/
def envClick : Env := ⟨fun _ => [], fun _ => true, fun _ => []⟩

/-- C9: the only way the loop ends (absent fatal driver errors) is snapshot
stagnation: if a control is found and clicked on every cycle, or every
post-scroll fetch differs from the baseline (the previous scroll fetch,
initially empty), the traversal is still running after any number of
iterations — there is no iteration or time ceiling. -/
theorem no_iteration_ceiling (env : Env) (n : Nat)
    (h : (∀ k, env.control k = true) ∨
      (∀ k, env.control k = false → env.scrollSrc k ≠ prevAt env k)) :
    isDone (handlePaginationRun env n) = false := by
  rcases run_char env n with ⟨hr, _⟩ | ⟨k, _, _, hkc, hks, _⟩
  · rw [hr]
    rfl
  · rcases h with h | h
    · rw [h k] at hkc
      exact absurd hkc (by simp)
    · exact absurd hks (h k hkc)

/-- C9 witness: a trace that clicks a control on every cycle is still
running after five iterations. -/
theorem no_iteration_ceiling_witness :
    isDone (handlePaginationRun envClick 5) = false :=
  no_iteration_ceiling envClick 5 (Or.inl (fun _ => rfl))

/-! ## Claim C2 — ordering of the accumulated reviews -/

/-- C2 (amended): after any number of iterations, `allReviews` is exactly
the concatenation, in page order, of the per-page review lists of the
snapshots processed so far — reviews of an earlier page precede those of a
later page, and within one page the candidates are processed in the
(unspecified) iteration order of the deduplicating set. -/
theorem reviews_concatenated_in_page_order (S : Scraper) (env : Env) (n : Nat) :
    (ScrapeReviewsAcc S env n).2 =
      ((List.range (pagesDone (ScrapeReviewsAcc S env n).1)).map
        (fun k => pageReviews S (env.pageSrc k))).flatten := by
  induction n with
  | zero => rfl
  | succ n ih =>
    rw [ScrapeReviewsAcc]
    rcases hsa : ScrapeReviewsAcc S env n with ⟨st, acc⟩
    rw [hsa] at ih
    cases st with
    | done k => simpa using ih
    | running k prev =>
      simp only [pagesDone] at ih
      have hpd : pagesDone (handlePaginationStep env (.running k prev)) = k + 1 := by
        rw [handlePaginationStep]
        by_cases hc : env.control k
        · simp [hc, pagesDone]
        · by_cases hs : env.scrollSrc k = prev
          · simp [hc, hs, pagesDone]
          · simp [hc, hs, pagesDone]
      simp only [hpd, List.range_succ, List.map_append, List.flatten_append,
        List.map_cons, List.map_nil, List.flatten_cons, List.flatten_nil,
        List.append_nil]
      rw [ih]

/-- Markup carrying two distinct candidate ids. -/
def m2 : Str := ("id='review1' id='review2'").data

/-- A parsed tree containing both candidate sections. -/
def tree2 : HNode :=
  .elemNode ("html").data []
    (.elemNode ("div").data [(("id").data, ("review1").data)] .nilNode
      (.elemNode ("div").data [(("id").data, ("review2").data)] .nilNode .nilNode))
    .nilNode

/-- Review produced for section `review1`. -/
def rv1 : Review := ⟨("t1").data, [], [], []⟩

/-- Review produced for section `review2`. -/
def rv2 : Review := ⟨("t2").data, [], [], []⟩

/-- Parse oracle returning `tree2` for every page source. -/
def parse2 : Str → HNode := fun _ => tree2

/-- Render oracle: the attribute values of the node. -/
def render2 : HNode → Str := fun n =>
  match n with
  | .elemNode _ a _ _ => (a.map Prod.snd).flatten
  | _ => []

/-- Completion oracle answering `[1]` for section `review1` and `[2]`
otherwise. -/
def llm2 : Str → Except Str Str := fun p =>
  if p = buildPrompt (("review1").data) then .ok (("[1]").data)
  else .ok (("[2]").data)

/-- Decode oracle mapping `[1]` to `rv1` and anything else to `rv2`. -/
def decode2 : Str → Except Str (List Review) := fun a =>
  if a = ("[1]").data then .ok [rv1] else .ok [rv2]

/-- The pipeline with the identity map-iteration order. -/
def scraperFwd : Scraper :=
  ⟨fun l => l, fun l => List.Perm.refl l, parse2, render2, llm2, decode2⟩

/-- The same pipeline with the reversed map-iteration order (also a valid
iteration order of the same Go map). -/
def scraperRev : Scraper :=
  ⟨List.reverse, List.reverse_perm, parse2, render2, llm2, decode2⟩

/-- A trace processing the page `m2` on its first iteration. -/
def env2 : Env := ⟨fun _ => m2, fun _ => true, fun _ => []⟩

set_option maxRecDepth 8192 in
/-- C2 counterexample: two runs over the SAME snapshots and the SAME
completion, decode, parse and render oracles — differing only in the
iteration order of the deduplicating Go map, both orders being permutations
of the same key set — produce the accumulated reviews in different orders,
so the output order is not uniquely determined and does not follow the
order in which candidate ids occur in the markup. -/
theorem output_order_not_determined :
    scraperFwd.llm = scraperRev.llm ∧ scraperFwd.decode = scraperRev.decode ∧
    scraperFwd.parse = scraperRev.parse ∧ scraperFwd.render = scraperRev.render ∧
    (ScrapeReviewsAcc scraperFwd env2 1).2 = [rv1, rv2] ∧
    (ScrapeReviewsAcc scraperRev env2 1).2 = [rv2, rv1] ∧
    rv1 ≠ rv2 := by
  refine ⟨rfl, rfl, rfl, rfl, by decide, by decide, by decide⟩

/-- C2 witness: the page-order theorem applied to the concrete forward
run. -/
theorem reviews_concatenated_in_page_order_witness :
    (ScrapeReviewsAcc scraperFwd env2 1).2 =
      ((List.range (pagesDone (ScrapeReviewsAcc scraperFwd env2 1).1)).map
        (fun k => pageReviews scraperFwd (env2.pageSrc k))).flatten :=
  reviews_concatenated_in_page_order scraperFwd env2 1

end Marble
